import Mathlib

/-!
Shallow embedding of the article store in `backend/database.py` of the
marklume repository, together with theorems settling the specification
claims about it.

The filesystem is modelled as an association list of paths to contents,
extended with sets of paths on which write / read / remove operations
fail (modelling `OSError`s), and a flag for the existence of the archive
directory. Time is modelled as a natural number of minutes, so that the
cache expiry window `CACHE_EXPIRY = timedelta(minutes=30)` becomes the
number 30.
-/

namespace Marklume

/-- Embeds `backend/models.py`: class `Article`. Timestamps are natural
numbers (minutes); `file_path = none` embeds Python `None`. -/
structure Article where
  id : Nat
  title : String
  content : String
  created_at : Nat
  updated_at : Nat
  file_path : Option String
  last_accessed : Nat
deriving DecidableEq, Repr

/-- Process-wide mutable state of `backend/database.py`: the globals
`db` (the article list) and `next_id`. -/
structure DBState where
  db : List Article
  next_id : Nat
deriving DecidableEq, Repr

/-- Read errors that `open(path, "r")` can raise, as the code
distinguishes them: `FileNotFoundError` and any other `OSError`. -/
inductive ReadErr where
  | notFound
  | osError
deriving DecidableEq, Repr

/-- Lookup in an association list of (path, contents), first match. -/
def lookupEntry : List (String × String) → String → Option String
  | [], _ => none
  | e :: rest, p => if e.1 == p then some e.2 else lookupEntry rest p

/-- Replace the first entry for path `p`, or append a new entry. -/
def setEntry : List (String × String) → String → String → List (String × String)
  | [], p, c => [(p, c)]
  | e :: rest, p, c => if e.1 == p then (p, c) :: rest else e :: setEntry rest p c

/-- Lookup in the (path, ctime, mtime) metadata list, first match. -/
def lookupTimes : List (String × Nat × Nat) → String → Option (Nat × Nat)
  | [], _ => none
  | e :: rest, p => if e.1 == p then some e.2 else lookupTimes rest p

/-- Model of the filesystem environment the store runs against:
the files on disk, plus which paths fail on write (`open(..., "w")`
raising `OSError`), fail on read with a non-`FileNotFoundError`
`OSError`, or fail on `os.remove`; `fileTimes` models
`os.path.getctime` / `os.path.getmtime`, and `archiveDirExists`
models `os.path.exists(ARCHIVE_DIR)`. -/
structure FS where
  files : List (String × String)
  writeFails : List String
  readFails : List String
  removeFails : List String
  fileTimes : List (String × Nat × Nat)
  archiveDirExists : Bool
deriving DecidableEq, Repr

/-- Models `os.path.exists` on a file path. -/
def FS.existsPath (fs : FS) (p : String) : Bool :=
  (lookupEntry fs.files p).isSome

/-- Models `open(p, "w"); f.write(c)`: `none` when the write raises
`OSError`, otherwise the updated filesystem. -/
def FS.writeFile (fs : FS) (p : String) (c : String) : Option FS :=
  if p ∈ fs.writeFails then none
  else some { fs with files := setEntry fs.files p c }

/-- Models `open(p, "r"); f.read()`: a missing path raises
`FileNotFoundError`; a path in `readFails` raises another `OSError`. -/
def FS.readFile (fs : FS) (p : String) : Except ReadErr String :=
  match lookupEntry fs.files p with
  | some c => if p ∈ fs.readFails then .error .osError else .ok c
  | none => .error .notFound

/-- Models a successful `os.remove p`. -/
def FS.removePath (fs : FS) (p : String) : FS :=
  { fs with files := fs.files.filter (fun e => e.1 != p) }

/-- The constant `ARCHIVE_DIR = "archive"`. -/
def ARCHIVE_DIR : String := "archive"

/-- The constant `CACHE_EXPIRY = timedelta(minutes=30)`, in minutes. -/
def CACHE_EXPIRY : Nat := 30

/-- Python truthiness of the `file_path` field: `None` and the empty
string are falsy. -/
def pathTruthy : Option String → Bool
  | some p => p != ""
  | none => false

/-- The placeholder content stored by `get_article` when the backing
file is missing. -/
def fileMissingMsg : String := "⚠️ 文章文件丢失，请联系管理员"

/-- The placeholder content stored by `get_article` when reading the
backing file fails with an `OSError` other than `FileNotFoundError`. -/
def loadFailedMsg : String := "⚠️ 文章加载失败，请稍后再试"

/-- Title sanitisation in `create_new_article`:
`"".join(c if c.isalnum() or c in " -_" else "_" for c in title)`. -/
def safeTitle (title : String) : String :=
  String.mk (title.data.map
    (fun c => if c.isAlphanum || c == ' ' || c == '-' || c == '_' then c else '_'))

/-- Candidate filename path tried by the collision loop at counter `k`:
`ARCHIVE_DIR/{safe_title}_{date_suffix}_{k}.md`. -/
def candidatePath (safe ds : String) (k : Nat) : String :=
  ARCHIVE_DIR ++ "/" ++ safe ++ "_" ++ ds ++ "_" ++ toString k ++ ".md"

/-- The fuelled form of `while os.path.exists(file_path): ...` in
`create_new_article`: starting from counter `k`, return the first
candidate path that does not exist. `none` embeds the (never reached)
exhaustion of the fuel, i.e. the loop not terminating within it. -/
def findLoop (fs : FS) (safe ds : String) : Nat → Nat → Option String
  | 0, _ => none
  | fuel + 1, k =>
    let p := candidatePath safe ds k
    if !fs.existsPath p then some p else findLoop fs safe ds fuel (k + 1)

/-- Resolution of the file path in `create_new_article`: the original
`ARCHIVE_DIR/{safe_title}.md` if free, otherwise the collision loop
starting at counter 1. -/
def findFreePath (fs : FS) (safe ds : String) : Option String :=
  let original := ARCHIVE_DIR ++ "/" ++ safe ++ ".md"
  if !fs.existsPath original then some original
  else findLoop fs safe ds (fs.files.length + 1) 1

/-- Error outcomes of `create_new_article`: `saveFailed` embeds the
`raise RuntimeError("Failed to save article")` on a failed write;
`noFreeName` embeds non-termination of the collision loop (fuel out),
which a finite filesystem never produces. -/
inductive CreateErr where
  | noFreeName
  | saveFailed
deriving DecidableEq, Repr

/-- Embeds `create_new_article(title, content)`. `now` is
`datetime.now()` and `date_suffix` is `now.strftime("%d%m%y")`, passed
as a parameter. On error the globals `db`/`next_id` and the filesystem
are returned unchanged, mirroring that the exception is raised before
any mutation. -/
def create_new_article (s : DBState) (fs : FS) (title content : String)
    (now : Nat) (date_suffix : String) :
    Except CreateErr Article × DBState × FS :=
  let safe := safeTitle title
  match findFreePath fs safe date_suffix with
  | none => (.error .noFreeName, s, fs)
  | some fp =>
    match fs.writeFile fp content with
    | none => (.error .saveFailed, s, fs)
    | some fs' =>
      let a : Article :=
        { id := s.next_id, title := title, content := content,
          created_at := now, updated_at := now,
          file_path := some fp, last_accessed := now }
      (.ok a, { db := s.db ++ [a], next_id := s.next_id + 1 }, fs')

/-- Body of the `for article in db` loop of `update_article_db`: the
first article with the given id has its fields mutated, then the
backing file (if truthy) is rewritten; `.error ()` embeds the
`raise RuntimeError("Failed to update article")`, at which point the
in-memory list already holds the mutation. -/
def updateLoop (articles : List Article) (article_id : Nat)
    (title content : String) (now : Nat) (fs : FS) :
    Except Unit (Option Article) × List Article × FS :=
  match articles with
  | [] => (.ok none, [], fs)
  | a :: rest =>
    if a.id == article_id then
      let a' := { a with title := title, content := content,
                         updated_at := now, last_accessed := now }
      match a'.file_path with
      | some p =>
        if p != "" then
          match fs.writeFile p content with
          | some fs' => (.ok (some a'), a' :: rest, fs')
          | none => (.error (), a' :: rest, fs)
        else (.ok (some a'), a' :: rest, fs)
      | none => (.ok (some a'), a' :: rest, fs)
    else
      let (r, rest', fs') := updateLoop rest article_id title content now fs
      (r, a :: rest', fs')

/-- Embeds `update_article_db(article_id, title, content)`. Returns
`.ok none` when no article has the id (`return None`). -/
def update_article_db (s : DBState) (fs : FS) (article_id : Nat)
    (title content : String) (now : Nat) :
    Except Unit (Option Article) × DBState × FS :=
  let (r, db', fs') := updateLoop s.db article_id title content now fs
  (r, { s with db := db' }, fs')

/-- Embeds `delete_article_db(article_id)`: the first article with the
id has its backing file removed best-effort (a failed `os.remove` is
only logged) and is then removed from the list; a missing id is a
no-op. -/
def delete_article_db (s : DBState) (fs : FS) (article_id : Nat) :
    DBState × FS :=
  match s.db.find? (fun a => a.id == article_id) with
  | none => (s, fs)
  | some a =>
    let fs' :=
      match a.file_path with
      | some p =>
        if p != "" && fs.existsPath p then
          if p ∈ fs.removeFails then fs else fs.removePath p
        else fs
      | none => fs
    ({ s with db := s.db.eraseP (fun x => x.id == article_id) }, fs')

/-- Condition under which `cleanup_cache` clears an article's content:
truthy `file_path`, truthy (non-empty) `content`, and
`now - last_accessed > CACHE_EXPIRY`. -/
def staleCond (now : Nat) (a : Article) : Bool :=
  pathTruthy a.file_path && a.content != "" && decide (now - a.last_accessed > CACHE_EXPIRY)

/-- Per-article action of `cleanup_cache`. -/
def cleanStep (now : Nat) (a : Article) : Article :=
  if staleCond now a then { a with content := "" } else a

/-- Embeds `cleanup_cache()`: walks every article and clears the
content of the stale ones; a pure in-memory mutation. -/
def cleanup_cache (s : DBState) (now : Nat) : DBState :=
  { s with db := s.db.map (cleanStep now) }

/-- On-demand load in `get_article`: when `file_path` is truthy and
`content` is falsy, read the file; a missing file stores
`fileMissingMsg`, any other read failure stores `loadFailedMsg`. The
boolean reports whether a file read was attempted. -/
def loadContent (fs : FS) (a : Article) : Article × Bool :=
  match a.file_path with
  | some p =>
    if p != "" && a.content == "" then
      match fs.readFile p with
      | .ok c => ({ a with content := c }, true)
      | .error .notFound => ({ a with content := fileMissingMsg }, true)
      | .error .osError => ({ a with content := loadFailedMsg }, true)
    else (a, false)
  | none => (a, false)

/-- Body of the `for article in db` loop of `get_article`: the first
article with the id is loaded on demand, gets `last_accessed := now`,
and is returned; the boolean reports whether a file read occurred. -/
def getLoop (articles : List Article) (fs : FS) (article_id : Nat)
    (now : Nat) : Option Article × List Article × Bool :=
  match articles with
  | [] => (none, [], false)
  | a :: rest =>
    if a.id == article_id then
      let (a1, didRead) := loadContent fs a
      let a2 := { a1 with last_accessed := now }
      (some a2, a2 :: rest, didRead)
    else
      let (r, rest', didRead) := getLoop rest fs article_id now
      (r, a :: rest', didRead)

/-- Embeds `get_article(article_id)`: returns the (possibly lazily
loaded) article, the mutated store, and whether a file read occurred;
`none` embeds `return None` (not found). Reading never changes the
filesystem. -/
def get_article (s : DBState) (fs : FS) (article_id : Nat) (now : Nat) :
    Option Article × DBState × Bool :=
  let (r, db', didRead) := getLoop s.db fs article_id now
  (r, { s with db := db' }, didRead)

/-- Check whether a path is one `glob.glob(os.path.join(ARCHIVE_DIR,
"*.md"))` would return: directly inside the archive directory with the
`.md` extension. -/
def isArchiveMd (p : String) : Bool :=
  p.startsWith (ARCHIVE_DIR ++ "/") && p.endsWith (".md")
    && !((p.drop (ARCHIVE_DIR.length + 1)).contains '/')

/-- Models the `glob.glob` call of `init_archive`. -/
def globMd (fs : FS) : List String :=
  (fs.files.map (fun e => e.1)).filter isArchiveMd

/-- Models `os.path.basename`. -/
def basename (p : String) : String :=
  (p.splitOn ("/")).getLastD p

/-- Models `os.path.splitext(filename)[0]` on the `*.md` filenames
produced by the glob. -/
def stem (f : String) : String :=
  if f.endsWith (".md") then f.dropRight 3 else f

/-- The article registered by one iteration of the
`for file_path in md_files` loop of `init_archive`: title from the
filename, content left empty, timestamps from the file metadata with
fallback `now`. -/
def initArticle (fs : FS) (now : Nat) (st : DBState) (fp : String) : Article :=
  let title := stem (basename fp)
  let times :=
    match lookupTimes fs.fileTimes fp with
    | some tu => tu
    | none => (now, now)
  { id := st.next_id, title := title, content := "",
    created_at := times.1, updated_at := times.2,
    file_path := some fp, last_accessed := now }

/-- Body of the `for file_path in md_files` loop of `init_archive`:
register one archived article with empty content and the next id. -/
def initStep (fs : FS) (now : Nat) (st : DBState) (fp : String) : DBState :=
  { db := st.db ++ [initArticle fs now st fp], next_id := st.next_id + 1 }

/-- Embeds `init_archive()`: if the archive directory is missing it is
created and scanning stops; otherwise every markdown file in it is
registered with content left empty. -/
def init_archive (s : DBState) (fs : FS) (now : Nat) : DBState × FS :=
  if !fs.archiveDirExists then (s, { fs with archiveDirExists := true })
  else ((globMd fs).foldl (initStep fs now) s, fs)

/-- The store operations a process can perform, for reasoning about
whole operation sequences (claim C6). -/
inductive Op where
  | createA (title content : String) (now : Nat) (ds : String)
  | updateA (article_id : Nat) (title content : String) (now : Nat)
  | deleteA (article_id : Nat)
  | getA (article_id : Nat) (now : Nat)
  | cleanupA (now : Nat)
  | initA (now : Nat)
deriving DecidableEq, Repr

/-- One operation applied to the world state, together with the list of
article ids it issued (in order of issue). -/
def stepOp (w : DBState × FS) : Op → (DBState × FS) × List Nat
  | .createA t c now ds =>
    let r := create_new_article w.1 w.2 t c now ds
    ((r.2.1, r.2.2),
      match r.1 with
      | .ok a => [a.id]
      | .error _ => [])
  | .updateA i t c now =>
    let r := update_article_db w.1 w.2 i t c now
    ((r.2.1, r.2.2), [])
  | .deleteA i => (delete_article_db w.1 w.2 i, [])
  | .getA i now => (((get_article w.1 w.2 i now).2.1, w.2), [])
  | .cleanupA now => ((cleanup_cache w.1 now, w.2), [])
  | .initA now =>
    let r := init_archive w.1 w.2 now
    (r, (r.1.db.drop w.1.db.length).map (fun a => a.id))

/-- A sequence of operations applied in order, collecting every issued
id in order of issue. -/
def runOps (w : DBState × FS) : List Op → (DBState × FS) × List Nat
  | [] => (w, [])
  | op :: rest =>
    ((runOps (stepOp w op).1 rest).1,
     (stepOp w op).2 ++ (runOps (stepOp w op).1 rest).2)

/-! Helper lemmas about the filesystem model. -/

theorem lookupEntry_setEntry (l : List (String × String)) (p c q) :
    lookupEntry (setEntry l p c) q = if q = p then some c else lookupEntry l q := by
  induction l with
  | nil =>
    by_cases h : q = p
    · simp [setEntry, lookupEntry, h]
    · have hpq : (p == q) = false := by
        simp only [beq_eq_false_iff_ne]
        exact fun e => h e.symm
      simp [setEntry, lookupEntry, hpq, h]
  | cons e rest ih =>
    by_cases hep : e.1 = p
    · by_cases hq : q = p
      · simp [setEntry, lookupEntry, hep, hq]
      · have h1 : (p == q) = false := by
          simp only [beq_eq_false_iff_ne]
          exact fun e => hq e.symm
        have h2 : (e.1 == q) = false := by
          simp only [beq_eq_false_iff_ne, hep]
          exact fun e => hq e.symm
        simp [setEntry, lookupEntry, hep, h1, h2, hq]
    · have hb : (e.1 == p) = false := by
        simp only [beq_eq_false_iff_ne]
        exact hep
      by_cases hq : e.1 = q
      · have hqp : ¬ q = p := fun h' => hep (hq.trans h')
        have h2 : (e.1 == q) = true := by simp [hq]
        simp [setEntry, lookupEntry, hb, h2, hqp]
      · have h2 : (e.1 == q) = false := by
          simp only [beq_eq_false_iff_ne]
          exact hq
        simp [setEntry, lookupEntry, hb, h2, ih]

theorem existsPath_writeFile {fs : FS} {p c fs'} (h : fs.writeFile p c = some fs') (q) :
    fs'.existsPath q = (q = p || fs.existsPath q) := by
  unfold FS.writeFile at h
  by_cases hw : p ∈ fs.writeFails
  · simp [hw] at h
  · simp only [hw, if_false, Option.some.injEq] at h
    subst h
    simp only [FS.existsPath, lookupEntry_setEntry]
    by_cases hq : q = p <;> simp [hq]

theorem lookup_writeFile {fs : FS} {p c fs'} (h : fs.writeFile p c = some fs') (q) :
    lookupEntry fs'.files q = if q = p then some c else lookupEntry fs.files q := by
  unfold FS.writeFile at h
  by_cases hw : p ∈ fs.writeFails
  · simp [hw] at h
  · simp only [hw, if_false, Option.some.injEq] at h
    subst h
    exact lookupEntry_setEntry fs.files p c q

theorem findLoop_spec {fs : FS} {safe ds : String} :
    ∀ {fuel k p}, findLoop fs safe ds fuel k = some p →
      fs.existsPath p = false ∧ ∃ j, k ≤ j ∧ p = candidatePath safe ds j := by
  intro fuel
  induction fuel with
  | zero => intro k p h; simp [findLoop] at h
  | succ n ih =>
    intro k p h
    simp only [findLoop] at h
    by_cases he : fs.existsPath (candidatePath safe ds k) = true
    · rw [if_neg (by simp [he])] at h
      obtain ⟨h1, j, hj, hp⟩ := ih h
      exact ⟨h1, j, by omega, hp⟩
    · rw [if_pos (by simp [Bool.not_eq_true] at he ⊢; exact he)] at h
      simp only [Option.some.injEq] at h
      subst h
      exact ⟨by simpa using he, k, Nat.le_refl k, rfl⟩

theorem findFreePath_not_exists {fs : FS} {safe ds p} (h : findFreePath fs safe ds = some p) :
    fs.existsPath p = false := by
  unfold findFreePath at h
  by_cases he : fs.existsPath (ARCHIVE_DIR ++ "/" ++ safe ++ ".md") = true
  · rw [if_neg (by simp [he])] at h
    exact (findLoop_spec h).1
  · rw [if_pos (by simp [Bool.not_eq_true] at he ⊢; exact he)] at h
    simp only [Option.some.injEq] at h
    subst h
    simpa using he

theorem findFreePath_suffix {fs : FS} {safe ds p}
    (he : fs.existsPath (ARCHIVE_DIR ++ "/" ++ safe ++ ".md") = true)
    (h : findFreePath fs safe ds = some p) :
    ∃ j, 1 ≤ j ∧ p = candidatePath safe ds j := by
  unfold findFreePath at h
  rw [if_neg (by simp [he])] at h
  exact (findLoop_spec h).2

/-! Helper lemmas about list scanning. -/

theorem find?_decomp {α : Type} {p : α → Bool} :
    ∀ {l : List α} {a}, l.find? p = some a →
      p a = true ∧ ∃ l1 l2, l = l1 ++ a :: l2 ∧ ∀ x ∈ l1, p x = false := by
  intro l
  induction l with
  | nil => intro a h; simp [List.find?] at h
  | cons b rest ih =>
    intro a h
    by_cases hb : p b
    · rw [List.find?_cons_of_pos _ hb] at h
      obtain rfl : b = a := by simpa using h
      exact ⟨hb, [], rest, rfl, by simp⟩
    · rw [List.find?_cons_of_neg _ hb] at h
      obtain ⟨hpa, l1, l2, hl, hnone⟩ := ih h
      exact ⟨hpa, b :: l1, l2, by simp [hl], by
        intro x hx
        rcases List.mem_cons.mp hx with rfl | hx
        · simpa using hb
        · exact hnone x hx⟩

theorem find?_append_cons {α : Type} {p : α → Bool} {l1 : List α} {a : α} (l2 : List α)
    (h1 : ∀ x ∈ l1, p x = false) (ha : p a = true) :
    (l1 ++ a :: l2).find? p = some a := by
  induction l1 with
  | nil => simp [List.find?_cons_of_pos _ ha]
  | cons b rest ih =>
    have hb : p b = false := h1 b (by simp)
    have hb' : ¬ p b = true := by simp [hb]
    rw [List.cons_append, List.find?_cons_of_neg _ hb']
    exact ih (fun x hx => h1 x (by simp [hx]))

theorem eraseP_append_cons {α : Type} {p : α → Bool} {l1 : List α} {a : α} (l2 : List α)
    (h1 : ∀ x ∈ l1, p x = false) (ha : p a = true) :
    (l1 ++ a :: l2).eraseP p = l1 ++ l2 := by
  induction l1 with
  | nil => simp [List.eraseP_cons, ha]
  | cons b rest ih =>
    have hb : p b = false := h1 b (by simp)
    rw [List.cons_append, List.eraseP_cons, hb]
    simp [ih (fun x hx => h1 x (by simp [hx]))]

theorem updateLoop_not_found {l : List Article} {article_id t c now fs}
    (h : ∀ a ∈ l, a.id ≠ article_id) :
    updateLoop l article_id t c now fs = (.ok none, l, fs) := by
  induction l with
  | nil => rfl
  | cons a rest ih =>
    have ha : (a.id == article_id) = false := by
      simpa using h a (by simp)
    have ih' := ih (fun x hx => h x (by simp [hx]))
    simp [updateLoop, ha, ih']

theorem getLoop_not_found {l : List Article} {article_id now} (fs : FS)
    (h : ∀ a ∈ l, a.id ≠ article_id) :
    getLoop l fs article_id now = (none, l, false) := by
  induction l with
  | nil => rfl
  | cons a rest ih =>
    have ha : (a.id == article_id) = false := by
      simpa using h a (by simp)
    have ih' := ih (fun x hx => h x (by simp [hx]))
    simp [getLoop, ha, ih']

theorem updateLoop_found_writeFail {l1 : List Article} {a : Article} (l2 : List Article)
    {fs : FS} {article_id : Nat} {p : String} (t c : String) (now : Nat)
    (h1 : ∀ x ∈ l1, x.id ≠ article_id) (ha : a.id = article_id)
    (hp : a.file_path = some p) (hpne : p ≠ "") (hw : p ∈ fs.writeFails) :
    updateLoop (l1 ++ a :: l2) article_id t c now fs =
      (.error (),
       l1 ++ { a with title := t, content := c,
                      updated_at := now, last_accessed := now } :: l2,
       fs) := by
  induction l1 with
  | nil =>
    have hb : (a.id == article_id) = true := by simp [ha]
    have hpne' : (p != "") = true := by simp [hpne]
    simp [updateLoop, hb, hp, hpne', FS.writeFile, hw]
  | cons b rest ih =>
    have hb : (b.id == article_id) = false := by
      simpa using h1 b (by simp)
    have ih' := ih (fun x hx => h1 x (by simp [hx]))
    simp [updateLoop, hb, ih', List.append_eq]

theorem zip_self_map {α β : Type} (l : List α) (f : α → β) :
    l.zip (l.map f) = l.map (fun a => (a, f a)) := by
  induction l with
  | nil => rfl
  | cons a rest ih => simp [ih]

theorem cleanStep_id (now : Nat) (a : Article) : (cleanStep now a).id = a.id := by
  unfold cleanStep
  by_cases h : staleCond now a = true <;> simp [h]

theorem cleanStep_idem (now : Nat) (a : Article) :
    cleanStep now (cleanStep now a) = cleanStep now a := by
  unfold cleanStep
  by_cases h : staleCond now a = true
  · simp only [h, if_pos rfl]
    have : staleCond now { a with content := "" } = false := by
      simp [staleCond]
    simp [this]
  · simp [h]

theorem getLoop_found {l1 : List Article} {a : Article} (l2 : List Article) (fs : FS)
    {article_id : Nat} (now : Nat)
    (h1 : ∀ x ∈ l1, x.id ≠ article_id) (ha : a.id = article_id) :
    getLoop (l1 ++ a :: l2) fs article_id now =
      (some { (loadContent fs a).1 with last_accessed := now },
       l1 ++ { (loadContent fs a).1 with last_accessed := now } :: l2,
       (loadContent fs a).2) := by
  induction l1 with
  | nil =>
    have hb : (a.id == article_id) = true := by simp [ha]
    simp [getLoop, hb]
  | cons b rest ih =>
    have hb : (b.id == article_id) = false := by
      simpa using h1 b (by simp)
    have ih' := ih (fun x hx => h1 x (by simp [hx]))
    simp [getLoop, hb, ih', List.append_eq]

theorem getLoop_didRead_of_empty {l : List Article} {article_id : Nat} {fs : FS}
    {a : Article} {p : String} (now : Nat)
    (hfind : l.find? (fun x => x.id == article_id) = some a)
    (hc : a.content = "") (hp : a.file_path = some p) (hpne : p ≠ "") :
    (getLoop l fs article_id now).2.2 = true := by
  obtain ⟨hpa, l1, l2, hl, hnone⟩ := find?_decomp hfind
  subst hl
  rw [getLoop_found l2 fs now (fun x hx => by simpa using hnone x hx) (by simpa using hpa)]
  cases hr : FS.readFile fs p with
  | ok c0 => simp [loadContent, hp, hc, hpne, hr]
  | error e => cases e <;> simp [loadContent, hp, hc, hpne, hr]

theorem get_article_append (s : DBState) (fs : FS) (a : Article) (now : Nat)
    (hne : ∀ x ∈ s.db, x.id ≠ a.id) :
    get_article { db := s.db ++ [a], next_id := s.next_id + 1 } fs a.id now =
      (some { (loadContent fs a).1 with last_accessed := now },
       { db := s.db ++ [{ (loadContent fs a).1 with last_accessed := now }],
         next_id := s.next_id + 1 },
       (loadContent fs a).2) := by
  unfold get_article
  rw [show ({ db := s.db ++ [a], next_id := s.next_id + 1 } : DBState).db =
    s.db ++ a :: [] from rfl]
  rw [getLoop_found [] fs now hne rfl]

/-! Claim theorems. -/

/-- C3: for every title and content, if `create_new_article` fails
because writing the file to the resolved path fails, the whole
operation fails and the store is unchanged: no article record is added
to the collection and no id is consumed (and the filesystem is
untouched). -/
theorem claim_C3 (s : DBState) (fs : FS) (title content : String) (now : Nat) (ds : String)
    (h : (create_new_article s fs title content now ds).1 = .error .saveFailed) :
    (create_new_article s fs title content now ds).2.1.db = s.db ∧
    (create_new_article s fs title content now ds).2.1.next_id = s.next_id ∧
    (create_new_article s fs title content now ds).2.2 = fs := by
  cases hf : findFreePath fs (safeTitle title) ds with
  | none => simp [create_new_article, hf] at h
  | some fp =>
    cases hw : fs.writeFile fp content with
    | none => simp [create_new_article, hf, hw]
    | some fs' => simp [create_new_article, hf, hw] at h

/-- Witness for C3 at a concrete input: a store with one pre-existing
article, a filesystem on which writing `archive/t.md` raises `OSError`. -/
theorem claim_C3_witness :
    ((create_new_article ⟨[⟨7, "x", "y", 0, 0, none, 0⟩], 8⟩
        ⟨[], ["archive/t.md"], [], [], [], true⟩ "t" "c" 3 "121025").1 = .error .saveFailed) ∧
    ((create_new_article ⟨[⟨7, "x", "y", 0, 0, none, 0⟩], 8⟩
        ⟨[], ["archive/t.md"], [], [], [], true⟩ "t" "c" 3 "121025").2.1.db =
      [⟨7, "x", "y", 0, 0, none, 0⟩]) ∧
    ((create_new_article ⟨[⟨7, "x", "y", 0, 0, none, 0⟩], 8⟩
        ⟨[], ["archive/t.md"], [], [], [], true⟩ "t" "c" 3 "121025").2.1.next_id = 8) := by
  refine ⟨rfl, ?_, ?_⟩
  · exact (claim_C3 ⟨[⟨7, "x", "y", 0, 0, none, 0⟩], 8⟩
      ⟨[], ["archive/t.md"], [], [], [], true⟩ "t" "c" 3 "121025" rfl).1
  · exact (claim_C3 ⟨[⟨7, "x", "y", 0, 0, none, 0⟩], 8⟩
      ⟨[], ["archive/t.md"], [], [], [], true⟩ "t" "c" 3 "121025" rfl).2.1

/-- C9: for every id not present in the store,
`update_article_db(id, title, content)` returns the not-found signal
(`None`) and leaves the store entirely unchanged: no article mutated,
no file written, and the id counter untouched. -/
theorem claim_C9 (s : DBState) (fs : FS) (article_id : Nat) (t c : String) (now : Nat)
    (h : ∀ a ∈ s.db, a.id ≠ article_id) :
    update_article_db s fs article_id t c now = (.ok none, s, fs) := by
  unfold update_article_db
  rw [updateLoop_not_found h]

/-- Witness for C9 at a concrete input: a store holding article 7 only,
updated at the absent id 3. -/
theorem claim_C9_witness :
    update_article_db ⟨[⟨7, "x", "y", 0, 0, some ("archive/x.md"), 0⟩], 8⟩
        ⟨[("archive/x.md", "y")], [], [], [], [], true⟩ 3 "t" "c" 9 =
      (.ok none, ⟨[⟨7, "x", "y", 0, 0, some ("archive/x.md"), 0⟩], 8⟩,
        ⟨[("archive/x.md", "y")], [], [], [], [], true⟩) :=
  claim_C9 _ _ _ _ _ _ (by decide)

/-- C2: for an id present in the store, if `update_article_db` fails
because the backing-file write fails, the failure is surfaced
(`RuntimeError`), but the in-memory record has already been mutated:
its title, content, updated_at and last_accessed hold the new values
despite the failure (and the filesystem is unchanged). -/
theorem claim_C2 (s : DBState) (fs : FS) (article_id : Nat) (t c : String) (now : Nat)
    (a : Article) (p : String)
    (hfind : s.db.find? (fun x => x.id == article_id) = some a)
    (hp : a.file_path = some p) (hpne : p ≠ "") (hw : p ∈ fs.writeFails) :
    (update_article_db s fs article_id t c now).1 = .error () ∧
    ((update_article_db s fs article_id t c now).2.1.db.find? (fun x => x.id == article_id) =
      some { a with title := t, content := c, updated_at := now, last_accessed := now }) ∧
    (update_article_db s fs article_id t c now).2.2 = fs := by
  obtain ⟨hpa, l1, l2, hl, hnone⟩ := find?_decomp hfind
  have ha : a.id = article_id := by simpa using hpa
  have hstep := updateLoop_found_writeFail l2 t c now
    (fun x hx => by simpa using hnone x hx) ha hp hpne hw
  unfold update_article_db
  rw [hl, hstep]
  refine ⟨rfl, ?_, rfl⟩
  exact find?_append_cons l2 hnone (by simp [ha])

/-- Witness for C2 at a concrete input: article 7 backed by
`archive/x.md`, on a filesystem where writing that path fails. -/
theorem claim_C2_witness :
    ((update_article_db ⟨[⟨7, "x", "y", 0, 0, some ("archive/x.md"), 0⟩], 8⟩
        ⟨[("archive/x.md", "y")], ["archive/x.md"], [], [], [], true⟩ 7 "t2" "c2" 9).1 =
      .error ()) ∧
    ((update_article_db ⟨[⟨7, "x", "y", 0, 0, some ("archive/x.md"), 0⟩], 8⟩
        ⟨[("archive/x.md", "y")], ["archive/x.md"], [], [], [], true⟩ 7 "t2" "c2" 9).2.1.db.find?
          (fun x => x.id == 7) =
      some ⟨7, "t2", "c2", 0, 9, some ("archive/x.md"), 9⟩) := by
  refine ⟨?_, ?_⟩
  · exact (claim_C2 _ _ _ _ _ _ ⟨7, "x", "y", 0, 0, some ("archive/x.md"), 0⟩
      "archive/x.md" (by decide) rfl (by decide) (by decide)).1
  · exact (claim_C2 _ _ _ _ _ _ ⟨7, "x", "y", 0, 0, some ("archive/x.md"), 0⟩
      "archive/x.md" (by decide) rfl (by decide) (by decide)).2.1

/-- C5: the cache sweeper is idempotent: one run clears content exactly
for the articles with a truthy backing path, non-empty in-memory
content, and `last_accessed` older than the 30-minute expiry window; an
immediate second run changes nothing, and on a store with no stale
content the run is a no-op. -/
theorem claim_C5 (s : DBState) (now : Nat) :
    cleanup_cache (cleanup_cache s now) now = cleanup_cache s now ∧
    ((∀ a ∈ s.db, staleCond now a = false) → cleanup_cache s now = s) ∧
    (∀ pr ∈ s.db.zip (cleanup_cache s now).db,
      (pr.2.content = "" ↔ (pr.1.content = "" ∨ staleCond now pr.1 = true))) := by
  refine ⟨?_, ?_, ?_⟩
  · unfold cleanup_cache
    simp only [List.map_map]
    congr 1
    exact List.map_congr_left (fun a _ => cleanStep_idem now a)
  · intro h
    unfold cleanup_cache
    have : s.db.map (cleanStep now) = s.db := by
      rw [List.map_congr_left (g := id) (fun a ha => by simp [cleanStep, h a ha])]
      exact List.map_id s.db
    rw [this]
  · intro pr hpr
    rw [show (cleanup_cache s now).db = s.db.map (cleanStep now) from rfl,
      zip_self_map] at hpr
    obtain ⟨a, _, rfl⟩ := List.mem_map.mp hpr
    by_cases h : staleCond now a = true
    · simp [cleanStep, h]
    · simp [cleanStep, h]

/-- Witness for C5 at a concrete store: one stale loaded article, one
fresh one; the concrete idempotence instance is derived from the
theorem. -/
theorem claim_C5_witness :
    cleanup_cache (cleanup_cache
        ⟨[⟨1, "a", "body", 0, 0, some ("archive/a.md"), 0⟩,
          ⟨2, "b", "body", 0, 0, some ("archive/b.md"), 40⟩], 3⟩ 60) 60 =
      cleanup_cache
        ⟨[⟨1, "a", "body", 0, 0, some ("archive/a.md"), 0⟩,
          ⟨2, "b", "body", 0, 0, some ("archive/b.md"), 40⟩], 3⟩ 60 :=
  (claim_C5 _ _).1

/-- C8: for every id present in the store, `delete_article_db(id)`
removes the in-memory record even when removing the backing file fails
(the filesystem `removeFails` set is arbitrary), and a subsequent
`get_article(id)` reports not-found; for an id not in the store,
`delete_article_db(id)` is a no-op on the store and filesystem. -/
theorem claim_C8 (s : DBState) (fs : FS) (article_id now : Nat)
    (hnodup : (s.db.map (fun a => a.id)).Nodup) :
    (∀ x ∈ (delete_article_db s fs article_id).1.db, x.id ≠ article_id) ∧
    ((get_article (delete_article_db s fs article_id).1
        (delete_article_db s fs article_id).2 article_id now).1 = none) ∧
    ((∀ x ∈ s.db, x.id ≠ article_id) → delete_article_db s fs article_id = (s, fs)) := by
  cases hfind : s.db.find? (fun x => x.id == article_id) with
  | none =>
    have habs : ∀ x ∈ s.db, x.id ≠ article_id := by
      intro x hx
      have := List.find?_eq_none.mp hfind x hx
      simpa using this
    have hdel : delete_article_db s fs article_id = (s, fs) := by
      simp [delete_article_db, hfind]
    refine ⟨?_, ?_, fun _ => hdel⟩
    · rw [hdel]; exact habs
    · rw [hdel]
      unfold get_article
      rw [getLoop_not_found fs habs]
  | some a =>
    obtain ⟨hpa, l1, l2, hl, hnone⟩ := find?_decomp hfind
    have ha : a.id = article_id := by simpa using hpa
    have hmem : a ∈ s.db := by rw [hl]; exact List.mem_append_right l1 (List.mem_cons_self a l2)
    have hnd := hnodup
    rw [hl] at hnd
    simp only [List.map_append, List.map_cons] at hnd
    have h2 : a.id ∉ l2.map (fun x => x.id) :=
      (List.nodup_cons.mp (List.Nodup.of_append_right hnd)).1
    have habs2 : ∀ x ∈ l1 ++ l2, x.id ≠ article_id := by
      intro x hx hxid
      rcases List.mem_append.mp hx with hx1 | hx2
      · exact absurd hxid (by simpa using hnone x hx1)
      · exact h2 (by rw [ha]; exact hxid ▸ List.mem_map_of_mem (fun y => y.id) hx2)
    have hdb : (delete_article_db s fs article_id).1.db = l1 ++ l2 := by
      simp only [delete_article_db, hfind]
      rw [hl, eraseP_append_cons l2 hnone (by simp [ha])]
    refine ⟨?_, ?_, ?_⟩
    · rw [hdb]; exact habs2
    · unfold get_article
      rw [hdb, getLoop_not_found _ habs2]
    · intro habs
      exact absurd (habs a hmem) (by simp [ha])

/-- Witness for C8 at a concrete input: article 7 backed by
`archive/x.md`, on a filesystem where `os.remove` of that path fails;
the record is removed from the store regardless. -/
theorem claim_C8_witness :
    (∀ x ∈ (delete_article_db ⟨[⟨7, "x", "y", 0, 0, some ("archive/x.md"), 0⟩], 8⟩
        ⟨[("archive/x.md", "y")], [], [], ["archive/x.md"], [], true⟩ 7).1.db,
      x.id ≠ 7) ∧
    ((get_article (delete_article_db ⟨[⟨7, "x", "y", 0, 0, some ("archive/x.md"), 0⟩], 8⟩
        ⟨[("archive/x.md", "y")], [], [], ["archive/x.md"], [], true⟩ 7).1
        (delete_article_db ⟨[⟨7, "x", "y", 0, 0, some ("archive/x.md"), 0⟩], 8⟩
        ⟨[("archive/x.md", "y")], [], [], ["archive/x.md"], [], true⟩ 7).2 7 9).1 = none) := by
  refine ⟨?_, ?_⟩
  · exact (claim_C8 ⟨[⟨7, "x", "y", 0, 0, some ("archive/x.md"), 0⟩], 8⟩
      ⟨[("archive/x.md", "y")], [], [], ["archive/x.md"], [], true⟩ 7 9 (by decide)).1
  · exact (claim_C8 ⟨[⟨7, "x", "y", 0, 0, some ("archive/x.md"), 0⟩], 8⟩
      ⟨[("archive/x.md", "y")], [], [], ["archive/x.md"], [], true⟩ 7 9 (by decide)).2.1

/-- C7: for an article in the store whose content is empty and whose
file path is set, `get_article` loads from disk and never propagates a
read error: a missing file yields the "file missing" placeholder, any
other read failure yields the "load failed" placeholder, and in both
cases the article is still returned rather than an error. -/
theorem claim_C7 (s : DBState) (fs : FS) (article_id now : Nat) (a : Article) (p : String)
    (hfind : s.db.find? (fun x => x.id == article_id) = some a)
    (hc : a.content = "") (hp : a.file_path = some p) (hpne : p ≠ "") :
    ((get_article s fs article_id now).1.isSome = true) ∧
    (lookupEntry fs.files p = none →
      ∃ a2, (get_article s fs article_id now).1 = some a2 ∧ a2.content = fileMissingMsg) ∧
    (∀ c0, lookupEntry fs.files p = some c0 → p ∈ fs.readFails →
      ∃ a2, (get_article s fs article_id now).1 = some a2 ∧ a2.content = loadFailedMsg) := by
  obtain ⟨hpa, l1, l2, hl, hnone⟩ := find?_decomp hfind
  have ha : a.id = article_id := by simpa using hpa
  have hget : get_article s fs article_id now =
      (some { (loadContent fs a).1 with last_accessed := now },
       { s with db := l1 ++ { (loadContent fs a).1 with last_accessed := now } :: l2 },
       (loadContent fs a).2) := by
    unfold get_article
    rw [hl, getLoop_found l2 fs now (fun x hx => by simpa using hnone x hx) ha]
  have hpne' : (p != "") = true := by simp [hpne]
  have hc' : (a.content == "") = true := by simp [hc]
  refine ⟨?_, ?_, ?_⟩
  · rw [hget]; rfl
  · intro hmiss
    refine ⟨{ (loadContent fs a).1 with last_accessed := now }, by rw [hget], ?_⟩
    simp [loadContent, hp, hpne', hc', FS.readFile, hmiss]
  · intro c0 hhit hrf
    refine ⟨{ (loadContent fs a).1 with last_accessed := now }, by rw [hget], ?_⟩
    simp [loadContent, hp, hpne', hc', FS.readFile, hhit, hrf]

/-- Witness for C7 at a concrete input: article 1 points at
`archive/a.md`, which is absent from the filesystem, so the lookup
returns the "file missing" placeholder article. -/
theorem claim_C7_witness :
    ((get_article ⟨[⟨1, "a", "", 0, 0, some ("archive/a.md"), 0⟩], 2⟩
        ⟨[], [], [], [], [], true⟩ 1 9).1.isSome = true) ∧
    (∃ a2, (get_article ⟨[⟨1, "a", "", 0, 0, some ("archive/a.md"), 0⟩], 2⟩
        ⟨[], [], [], [], [], true⟩ 1 9).1 = some a2 ∧ a2.content = fileMissingMsg) := by
  refine ⟨?_, ?_⟩
  · exact (claim_C7 ⟨[⟨1, "a", "", 0, 0, some ("archive/a.md"), 0⟩], 2⟩
      ⟨[], [], [], [], [], true⟩ 1 9 ⟨1, "a", "", 0, 0, some ("archive/a.md"), 0⟩
      "archive/a.md" (by decide) rfl rfl (by decide)).1
  · exact (claim_C7 ⟨[⟨1, "a", "", 0, 0, some ("archive/a.md"), 0⟩], 2⟩
      ⟨[], [], [], [], [], true⟩ 1 9 ⟨1, "a", "", 0, 0, some ("archive/a.md"), 0⟩
      "archive/a.md" (by decide) rfl rfl (by decide)).2.1 rfl

/-- C1 counterexample: the claim as stated fails when the supplied
content is the empty string. `create_new_article("t", "")` succeeds and
returns article 1, yet the subsequent `get_article(1)` does perform a
file read (the third component `true`), because empty content is
indistinguishable from "not loaded". -/
theorem claim_C1_counterexample :
    create_new_article ⟨[], 1⟩ ⟨[], [], [], [], [], true⟩ "t" "" 0 "121025" =
      (.ok ⟨1, "t", "", 0, 0, some ("archive/t.md"), 0⟩,
       ⟨[⟨1, "t", "", 0, 0, some ("archive/t.md"), 0⟩], 2⟩,
       ⟨[("archive/t.md", "")], [], [], [], [], true⟩) ∧
    (get_article ⟨[⟨1, "t", "", 0, 0, some ("archive/t.md"), 0⟩], 2⟩
        ⟨[("archive/t.md", "")], [], [], [], [], true⟩ 1 5).2.2 = true :=
  ⟨rfl, rfl⟩

/-- C1 (amended): for every title `t` and non-empty content `c`, after
`create_new_article(t, c)` succeeds and returns an article with id `n`,
`get_article(n)` returns content equal to `c` and performs no file read
(the content is already cached in memory). -/
theorem claim_C1 (s : DBState) (fs : FS) (t c : String) (now now2 : Nat) (ds : String)
    (a : Article) (s1 : DBState) (fs1 : FS)
    (hc : c ≠ "")
    (hinv : ∀ x ∈ s.db, x.id < s.next_id)
    (h : create_new_article s fs t c now ds = (.ok a, s1, fs1)) :
    (∃ a2, (get_article s1 fs1 a.id now2).1 = some a2 ∧ a2.content = c) ∧
    (get_article s1 fs1 a.id now2).2.2 = false := by
  cases hf : findFreePath fs (safeTitle t) ds with
  | none => rw [create_new_article] at h; rw [hf] at h; simp at h
  | some fp =>
    cases hw : fs.writeFile fp c with
    | none =>
      rw [create_new_article] at h; rw [hf] at h
      simp only [hw] at h
      simp at h
    | some fs1' =>
      rw [create_new_article] at h; rw [hf] at h
      simp only [hw, Prod.mk.injEq, Except.ok.injEq] at h
      obtain ⟨ha, hs1, hfs1⟩ := h
      subst ha; subst hs1; subst hfs1
      have hne : ∀ x ∈ s.db, x.id ≠
          ({ id := s.next_id, title := t, content := c, created_at := now,
             updated_at := now, file_path := some fp,
             last_accessed := now } : Article).id :=
        fun x hx => Nat.ne_of_lt (hinv x hx)
      have hload : loadContent fs1'
          { id := s.next_id, title := t, content := c, created_at := now,
            updated_at := now, file_path := some fp, last_accessed := now } =
          ({ id := s.next_id, title := t, content := c, created_at := now,
             updated_at := now, file_path := some fp, last_accessed := now }, false) := by
        simp [loadContent, show (c == "") = false by simp [hc]]
      rw [get_article_append s fs1' _ now2 hne, hload]
      exact ⟨⟨_, rfl, rfl⟩, rfl⟩

/-- Witness for the amended C1 at a concrete input: creating ("t", "c")
in an empty store and reading article 1 back yields "c" without a file
read. -/
theorem claim_C1_witness :
    (∃ a2, (get_article ⟨[⟨1, "t", "c", 0, 0, some ("archive/t.md"), 0⟩], 2⟩
        ⟨[("archive/t.md", "c")], [], [], [], [], true⟩ 1 5).1 = some a2 ∧
      a2.content = "c") ∧
    (get_article ⟨[⟨1, "t", "c", 0, 0, some ("archive/t.md"), 0⟩], 2⟩
        ⟨[("archive/t.md", "c")], [], [], [], [], true⟩ 1 5).2.2 = false :=
  claim_C1 ⟨[], 1⟩ ⟨[], [], [], [], [], true⟩ "t" "c" 0 5 "121025"
    ⟨1, "t", "c", 0, 0, some ("archive/t.md"), 0⟩
    ⟨[⟨1, "t", "c", 0, 0, some ("archive/t.md"), 0⟩], 2⟩
    ⟨[("archive/t.md", "c")], [], [], [], [], true⟩
    (by decide) (by decide) rfl

/-- C4: two consecutive successful `create_new_article` calls with the
same title yield articles backed by two distinct file paths; the second
path carries the date suffix plus an incrementing counter
(`{safe}_{date}_{k}.md`, k ≥ 1), and neither file's content is
overwritten by the other: after both calls the first path still holds
`c1` and the second holds `c2`. -/
theorem claim_C4 (s : DBState) (fs : FS) (t c1 c2 : String) (n1 n2 : Nat) (d1 d2 : String)
    (a1 a2 : Article) (s1 s2 : DBState) (fs1 fs2 : FS)
    (h1 : create_new_article s fs t c1 n1 d1 = (.ok a1, s1, fs1))
    (h2 : create_new_article s1 fs1 t c2 n2 d2 = (.ok a2, s2, fs2)) :
    ∃ p1 p2, a1.file_path = some p1 ∧ a2.file_path = some p2 ∧ p1 ≠ p2 ∧
      lookupEntry fs2.files p1 = some c1 ∧ lookupEntry fs2.files p2 = some c2 ∧
      ∃ k, 1 ≤ k ∧ p2 = candidatePath (safeTitle t) d2 k := by
  cases hf1 : findFreePath fs (safeTitle t) d1 with
  | none => rw [create_new_article] at h1; rw [hf1] at h1; simp at h1
  | some p1 =>
    cases hw1 : fs.writeFile p1 c1 with
    | none =>
      rw [create_new_article] at h1; rw [hf1] at h1
      simp only [hw1] at h1
      simp at h1
    | some fs1' =>
      rw [create_new_article] at h1; rw [hf1] at h1
      simp only [hw1, Prod.mk.injEq, Except.ok.injEq] at h1
      obtain ⟨ha1, hs1, hfs1⟩ := h1
      subst hs1; subst hfs1
      cases hf2 : findFreePath fs1' (safeTitle t) d2 with
      | none => rw [create_new_article] at h2; rw [hf2] at h2; simp at h2
      | some p2 =>
        cases hw2 : fs1'.writeFile p2 c2 with
        | none =>
          rw [create_new_article] at h2; rw [hf2] at h2
          simp only [hw2] at h2
          simp at h2
        | some fs2' =>
          rw [create_new_article] at h2; rw [hf2] at h2
          simp only [hw2, Prod.mk.injEq, Except.ok.injEq] at h2
          obtain ⟨ha2, hs2, hfs2⟩ := h2
          subst hs2; subst hfs2
          have hex1 : fs1'.existsPath p1 = true := by
            rw [existsPath_writeFile hw1 p1]; simp
          have hfree2 : fs1'.existsPath p2 = false := findFreePath_not_exists hf2
          have hne : p1 ≠ p2 := by
            intro e
            rw [← e, hex1] at hfree2
            exact absurd hfree2 (by simp)
          have hlook1 : lookupEntry fs1'.files p1 = some c1 := by
            rw [lookup_writeFile hw1 p1]; simp
          have hlookp1 : lookupEntry fs2'.files p1 = some c1 := by
            rw [lookup_writeFile hw2 p1, if_neg hne]; exact hlook1
          have hlookp2 : lookupEntry fs2'.files p2 = some c2 := by
            rw [lookup_writeFile hw2 p2]; simp
          have horig : fs1'.existsPath (ARCHIVE_DIR ++ "/" ++ safeTitle t ++ ".md") = true := by
            by_cases he : fs.existsPath (ARCHIVE_DIR ++ "/" ++ safeTitle t ++ ".md") = true
            · rw [existsPath_writeFile hw1]; simp [he]
            · have he' : fs.existsPath (ARCHIVE_DIR ++ "/" ++ safeTitle t ++ ".md") = false := by
                simpa using he
              have hp1 : p1 = ARCHIVE_DIR ++ "/" ++ safeTitle t ++ ".md" := by
                unfold findFreePath at hf1
                rw [if_pos (by simp [he'])] at hf1
                simpa using hf1.symm
              rw [existsPath_writeFile hw1]
              simp [hp1]
          obtain ⟨k, hk, hcand⟩ := findFreePath_suffix horig hf2
          exact ⟨p1, p2, by rw [← ha1], by rw [← ha2], hne, hlookp1, hlookp2, k, hk, hcand⟩

/-- Witness for C4 at a concrete input: creating "t" twice in an empty
store; the second file is `archive/t_121025_1.md` and both contents
survive. -/
theorem claim_C4_witness :
    ∃ p1 p2,
      (⟨1, "t", "c1", 0, 0, some ("archive/t.md"), 0⟩ : Article).file_path = some p1 ∧
      (⟨2, "t", "c2", 1, 1, some ("archive/t_121025_1.md"), 1⟩ : Article).file_path = some p2 ∧
      p1 ≠ p2 ∧
      lookupEntry [("archive/t.md", "c1"), ("archive/t_121025_1.md", "c2")] p1 = some ("c1") ∧
      lookupEntry [("archive/t.md", "c1"), ("archive/t_121025_1.md", "c2")] p2 = some ("c2") ∧
      ∃ k, 1 ≤ k ∧ p2 = candidatePath (safeTitle ("t")) "121025" k := by
  have h := claim_C4 ⟨[], 1⟩ ⟨[], [], [], [], [], true⟩ "t" "c1" "c2" 0 1 "121025" "121025"
    ⟨1, "t", "c1", 0, 0, some ("archive/t.md"), 0⟩
    ⟨2, "t", "c2", 1, 1, some ("archive/t_121025_1.md"), 1⟩
    ⟨[⟨1, "t", "c1", 0, 0, some ("archive/t.md"), 0⟩], 2⟩
    ⟨[⟨1, "t", "c1", 0, 0, some ("archive/t.md"), 0⟩,
      ⟨2, "t", "c2", 1, 1, some ("archive/t_121025_1.md"), 1⟩], 3⟩
    ⟨[("archive/t.md", "c1")], [], [], [], [], true⟩
    ⟨[("archive/t.md", "c1"), ("archive/t_121025_1.md", "c2")], [], [], [], [], true⟩
    rfl rfl
  exact h

/-- C10: once a failed load has stored a placeholder as an article's
content, a `get_article` returns that same (non-empty) placeholder
without attempting any file read; after the sweeper clears it (the
access being older than the expiry window), the next `get_article`
retries the disk read. -/
theorem claim_C10 (s : DBState) (fs : FS) (article_id now1 now2 now3 : Nat)
    (a : Article) (p : String)
    (hfind : s.db.find? (fun x => x.id == article_id) = some a)
    (hp : a.file_path = some p) (hpne : p ≠ "")
    (hmsg : a.content = fileMissingMsg ∨ a.content = loadFailedMsg)
    (hstale : now2 - now1 > CACHE_EXPIRY) :
    (fileMissingMsg ≠ "" ∧ loadFailedMsg ≠ "") ∧
    ((get_article s fs article_id now1).2.2 = false) ∧
    (∃ a2, (get_article s fs article_id now1).1 = some a2 ∧ a2.content = a.content) ∧
    ((get_article (cleanup_cache (get_article s fs article_id now1).2.1 now2)
        fs article_id now3).2.2 = true) := by
  have hfm : fileMissingMsg ≠ "" := by decide
  have hlf : loadFailedMsg ≠ "" := by decide
  have hcne : a.content ≠ "" := by
    rcases hmsg with h | h
    · rw [h]; exact hfm
    · rw [h]; exact hlf
  obtain ⟨hpa, l1, l2, hl, hnone⟩ := find?_decomp hfind
  have ha : a.id = article_id := by simpa using hpa
  have hnone' : ∀ x ∈ l1, x.id ≠ article_id := fun x hx => by simpa using hnone x hx
  have hload : loadContent fs a = (a, false) := by
    simp [loadContent, hp, show (a.content == "") = false by simp [hcne]]
  have hg1 : get_article s fs article_id now1 =
      (some { a with last_accessed := now1 },
       { s with db := l1 ++ { a with last_accessed := now1 } :: l2 },
       false) := by
    unfold get_article
    rw [hl, getLoop_found l2 fs now1 hnone' ha, hload]
  have hstale1 : staleCond now2 { a with last_accessed := now1 } = true := by
    simp [staleCond, pathTruthy, hp, hpne, hcne, hstale]
  have hcleandb :
      (cleanup_cache { s with db := l1 ++ { a with last_accessed := now1 } :: l2 } now2).db =
        l1.map (cleanStep now2) ++
          { a with content := "", last_accessed := now1 } :: l2.map (cleanStep now2) := by
    simp only [cleanup_cache, List.map_append, List.map_cons]
    rw [show cleanStep now2 { a with last_accessed := now1 } =
      { a with content := "", last_accessed := now1 } from by simp [cleanStep, hstale1]]
  have hfind2 :
      ((cleanup_cache { s with db := l1 ++ { a with last_accessed := now1 } :: l2 } now2).db).find?
          (fun x => x.id == article_id) =
        some { a with content := "", last_accessed := now1 } := by
    rw [hcleandb]
    apply find?_append_cons
    · intro x hx
      obtain ⟨y, hy, rfl⟩ := List.mem_map.mp hx
      simpa [cleanStep_id] using hnone y hy
    · simp [ha]
  refine ⟨⟨hfm, hlf⟩, by rw [hg1], ⟨{ a with last_accessed := now1 }, by rw [hg1], rfl⟩, ?_⟩
  rw [hg1]
  exact getLoop_didRead_of_empty now3 hfind2 rfl hp hpne

/-- Witness for C10 at a concrete input: article 1 holds the "file
missing" placeholder; reading at time 0 does not touch the disk,
sweeping at time 60 clears the cache, and the read at time 61 goes back
to disk. -/
theorem claim_C10_witness :
    (fileMissingMsg ≠ "" ∧ loadFailedMsg ≠ "") ∧
    ((get_article ⟨[⟨1, "a", fileMissingMsg, 0, 0, some ("archive/a.md"), 0⟩], 2⟩
        ⟨[], [], [], [], [], true⟩ 1 0).2.2 = false) ∧
    (∃ a2, (get_article ⟨[⟨1, "a", fileMissingMsg, 0, 0, some ("archive/a.md"), 0⟩], 2⟩
        ⟨[], [], [], [], [], true⟩ 1 0).1 = some a2 ∧
      a2.content = (⟨1, "a", fileMissingMsg, 0, 0, some ("archive/a.md"), 0⟩ : Article).content) ∧
    ((get_article (cleanup_cache
        (get_article ⟨[⟨1, "a", fileMissingMsg, 0, 0, some ("archive/a.md"), 0⟩], 2⟩
          ⟨[], [], [], [], [], true⟩ 1 0).2.1 60)
        ⟨[], [], [], [], [], true⟩ 1 61).2.2 = true) :=
  claim_C10 ⟨[⟨1, "a", fileMissingMsg, 0, 0, some ("archive/a.md"), 0⟩], 2⟩
    ⟨[], [], [], [], [], true⟩ 1 0 60 61
    ⟨1, "a", fileMissingMsg, 0, 0, some ("archive/a.md"), 0⟩ "archive/a.md"
    (by decide) rfl (by decide) (Or.inl rfl) (by decide)

theorem initFold_spec (fs : FS) (now : Nat) :
    ∀ (ps : List String) (st : DBState),
      ∃ newAs : List Article,
        (ps.foldl (initStep fs now) st).db = st.db ++ newAs ∧
        (ps.foldl (initStep fs now) st).next_id = st.next_id + ps.length ∧
        (∀ x ∈ newAs, st.next_id ≤ x.id ∧ x.id < st.next_id + ps.length) ∧
        newAs.Pairwise (fun x y => x.id < y.id) := by
  intro ps
  induction ps with
  | nil => intro st; exact ⟨[], by simp, by simp, by simp, by simp⟩
  | cons fp rest ih =>
    intro st
    obtain ⟨newAs, hdb, hnext, hbounds, hpw⟩ := ih (initStep fs now st fp)
    have estep : (initStep fs now st fp).next_id = st.next_id + 1 := rfl
    have eid : (initArticle fs now st fp).id = st.next_id := rfl
    refine ⟨initArticle fs now st fp :: newAs, ?_, ?_, ?_, ?_⟩
    · rw [List.foldl_cons, hdb,
        show (initStep fs now st fp).db = st.db ++ [initArticle fs now st fp] from rfl]
      simp
    · rw [List.foldl_cons, hnext, estep]
      simp [List.length_cons]
      omega
    · intro x hx
      rcases List.mem_cons.mp hx with rfl | hx2
      · rw [eid]
        refine ⟨Nat.le_refl _, ?_⟩
        simp only [List.length_cons]
        omega
      · have hb := hbounds x hx2
        rw [estep] at hb
        refine ⟨by omega, ?_⟩
        simp [List.length_cons]
        omega
    · rw [List.pairwise_cons]
      refine ⟨?_, hpw⟩
      intro y hy
      have hb := hbounds y hy
      rw [estep] at hb
      rw [eid]
      omega

theorem stepOp_spec (w : DBState × FS) (op : Op) :
    w.1.next_id ≤ (stepOp w op).1.1.next_id ∧
    (∀ i ∈ (stepOp w op).2, w.1.next_id ≤ i ∧ i < (stepOp w op).1.1.next_id) ∧
    ((stepOp w op).2).Pairwise (fun x y => x < y) := by
  cases op with
  | createA t c now ds =>
    cases hf : findFreePath w.2 (safeTitle t) ds with
    | none =>
      have heq : stepOp w (.createA t c now ds) = ((w.1, w.2), []) := by
        simp [stepOp, create_new_article, hf]
      rw [heq]
      exact ⟨Nat.le_refl _, by simp, List.Pairwise.nil⟩
    | some fp =>
      cases hw : FS.writeFile w.2 fp c with
      | none =>
        have heq : stepOp w (.createA t c now ds) = ((w.1, w.2), []) := by
          simp [stepOp, create_new_article, hf, hw]
        rw [heq]
        exact ⟨Nat.le_refl _, by simp, List.Pairwise.nil⟩
      | some fs' =>
        have heq : stepOp w (.createA t c now ds) =
            ((⟨w.1.db ++ [⟨w.1.next_id, t, c, now, now, some fp, now⟩],
               w.1.next_id + 1⟩, fs'), [w.1.next_id]) := by
          simp [stepOp, create_new_article, hf, hw]
        rw [heq]
        refine ⟨by simp, ?_, by simp⟩
        intro i hi
        simp only [List.mem_singleton] at hi
        subst hi
        simp
  | updateA i t c now =>
    exact ⟨Nat.le_refl _, by simp [stepOp], List.Pairwise.nil⟩
  | deleteA i =>
    have hnext : (delete_article_db w.1 w.2 i).1.next_id = w.1.next_id := by
      cases hfind : w.1.db.find? (fun x => x.id == i) with
      | none => simp [delete_article_db, hfind]
      | some a => simp [delete_article_db, hfind]
    exact ⟨Nat.le_of_eq hnext.symm, by simp [stepOp], List.Pairwise.nil⟩
  | getA i now =>
    exact ⟨Nat.le_refl _, by simp [stepOp], List.Pairwise.nil⟩
  | cleanupA now =>
    exact ⟨Nat.le_refl _, by simp [stepOp], List.Pairwise.nil⟩
  | initA now =>
    by_cases hd : w.2.archiveDirExists = true
    · have heq : init_archive w.1 w.2 now = ((globMd w.2).foldl (initStep w.2 now) w.1, w.2) := by
        simp [init_archive, hd]
      obtain ⟨newAs, hdb, hnext, hbounds, hpw⟩ := initFold_spec w.2 now (globMd w.2) w.1
      have hdrop : (init_archive w.1 w.2 now).1.db.drop w.1.db.length = newAs := by
        rw [heq]
        show ((globMd w.2).foldl (initStep w.2 now) w.1).db.drop w.1.db.length = newAs
        rw [hdb]
        exact List.drop_left w.1.db newAs
      have hissued : (stepOp w (.initA now)).2 = newAs.map (fun a => a.id) := by
        show ((init_archive w.1 w.2 now).1.db.drop w.1.db.length).map (fun a => a.id) = _
        rw [hdrop]
      have hnext' : (stepOp w (.initA now)).1.1.next_id = w.1.next_id + (globMd w.2).length := by
        show (init_archive w.1 w.2 now).1.next_id = _
        rw [heq]
        exact hnext
      refine ⟨?_, ?_, ?_⟩
      · rw [hnext']; omega
      · intro i hi
        rw [hissued] at hi
        obtain ⟨x, hx, rfl⟩ := List.mem_map.mp hi
        have hb := hbounds x hx
        refine ⟨hb.1, ?_⟩
        rw [hnext']
        exact hb.2
      · rw [hissued]
        exact List.pairwise_map.mpr hpw
    · have heq : init_archive w.1 w.2 now = (w.1, { w.2 with archiveDirExists := true }) := by
        simp [init_archive, hd]
      have hissued : (stepOp w (.initA now)).2 = [] := by
        show ((init_archive w.1 w.2 now).1.db.drop w.1.db.length).map (fun a => a.id) = []
        rw [heq]
        simp [List.drop_length]
      have hnext' : (stepOp w (.initA now)).1.1.next_id = w.1.next_id := by
        show (init_archive w.1 w.2 now).1.next_id = _
        rw [heq]
      refine ⟨Nat.le_of_eq hnext'.symm, ?_, ?_⟩
      · intro i hi
        rw [hissued] at hi
        simp at hi
      · rw [hissued]
        exact List.Pairwise.nil

theorem runOps_spec : ∀ (ops : List Op) (w : DBState × FS),
    w.1.next_id ≤ (runOps w ops).1.1.next_id ∧
    (∀ i ∈ (runOps w ops).2, w.1.next_id ≤ i ∧ i < (runOps w ops).1.1.next_id) ∧
    ((runOps w ops).2).Pairwise (fun x y => x < y) := by
  intro ops
  induction ops with
  | nil => intro w; exact ⟨Nat.le_refl _, by simp [runOps], by simp [runOps]⟩
  | cons op rest ih =>
    intro w
    obtain ⟨hs1, hb1, hp1⟩ := stepOp_spec w op
    obtain ⟨hs2, hb2, hp2⟩ := ih (stepOp w op).1
    have e1 : (runOps w (op :: rest)).1 = (runOps (stepOp w op).1 rest).1 := rfl
    have e2 : (runOps w (op :: rest)).2 =
        (stepOp w op).2 ++ (runOps (stepOp w op).1 rest).2 := rfl
    refine ⟨?_, ?_, ?_⟩
    · rw [e1]
      exact Nat.le_trans hs1 hs2
    · intro i hi
      rw [e2] at hi
      rw [e1]
      rcases List.mem_append.mp hi with hi1 | hi2
      · exact ⟨(hb1 i hi1).1, Nat.lt_of_lt_of_le (hb1 i hi1).2 hs2⟩
      · exact ⟨Nat.le_trans hs1 (hb2 i hi2).1, (hb2 i hi2).2⟩
    · rw [e2, List.pairwise_append]
      refine ⟨hp1, hp2, ?_⟩
      intro x hx y hy
      exact Nat.lt_of_lt_of_le (hb1 x hx).2 (hb2 y hy).1

/-- C6: over any sequence of store operations (creates, updates,
deletes, reads, cache sweeps and archive scans) from any starting
state, the ids issued by the store are strictly increasing in order of
issue and never reused, even after deletions. -/
theorem claim_C6 (w : DBState × FS) (ops : List Op) :
    ((runOps w ops).2).Pairwise (fun x y => x < y) ∧ ((runOps w ops).2).Nodup :=
  ⟨(runOps_spec ops w).2.2,
   ((runOps_spec ops w).2.2).imp (fun h => Nat.ne_of_lt h)⟩

end Marklume
